import Mathlib

/-!
Verification development for the hr-automation repository.

Texts are modelled as `List Char` (`Text`); Python strings interface through
`String.data`.  Machine reals produced by Python `float` are modelled as `ℚ`
(every value appearing in the specification is an exact decimal).  Fallible
code returns `Option`/`Except`; network and model calls are abstracted as
explicit functional parameters.
-/

namespace HRSpec

abbrev Text := List Char

/-- Python `\s` on the ASCII range (space, tab, newline, CR, VT, FF),
as used by the `re` patterns in `resume_analysis_agent.py`. -/
def pyIsSpace (c : Char) : Bool :=
  c = ' ' || c = '\t' || c = '\n' || c = '\r' || c = '\x0b' || c = '\x0c'

/-- Word characters for Python's `\b`: `[A-Za-z0-9_]`. -/
def wordChar (c : Char) : Bool := c.isAlphanum || c = '_'

/-- First index (if any) at which `p` occurs as a contiguous sublist of `t`;
Python `str.find`. -/
def findSub (t p : Text) : Option Nat :=
  match t with
  | [] => if p.isPrefixOf ([] : Text) then some 0 else none
  | c :: r =>
    if p.isPrefixOf (c :: r) then some 0
    else (findSub r p).map (· + 1)

/-- Python's `in` operator on strings: contiguous-substring containment. -/
def containsSub (t p : Text) : Bool := (findSub t p).isSome

/-- Fuelled kernel of `replaceAll`; `fuel = s.length` always suffices
because every step consumes at least one character of `s`. -/
def replaceAllF : Nat → Text → Text → Text → Text
  | 0, s, _, _ => s
  | Nat.succ fuel, s, pat, rep =>
    match s with
    | [] => []
    | c :: rest =>
      if (!pat.isEmpty) && pat.isPrefixOf (c :: rest) then
        rep ++ replaceAllF fuel ((c :: rest).drop pat.length) pat rep
      else
        c :: replaceAllF fuel rest pat rep

/-- Python `str.replace`: replace every non-overlapping occurrence of `pat`
in `s` by `rep`, scanning left to right, never rescanning replaced text. -/
def replaceAll (s pat rep : Text) : Text := replaceAllF s.length s pat rep

/-- Python `str.strip()` (whitespace on both ends). -/
def pyStrip (l : Text) : Text :=
  ((l.dropWhile pyIsSpace).reverse.dropWhile pyIsSpace).reverse

/-- Python `str.lower()` restricted to the ASCII case mapping. -/
def lowerText (l : Text) : Text := l.map Char.toLower

/-- Python `max(xs, key=len)`: first element of maximal length. -/
def maxByLen : List Text → Text
  | [] => []
  | h :: t => t.foldl (fun a b => if b.length > a.length then b else a) h

/-- Python `str.split(sep)` for a single-character separator. -/
def splitOnChar (sep : Char) : Text → List Text
  | [] => [[]]
  | c :: r =>
    let rest := splitOnChar sep r
    if c = sep then [] :: rest
    else
      match rest with
      | h :: t => (c :: h) :: t
      | [] => [[c]]

/-- Python `domain.split('.')[-1]`: the characters after the last dot. -/
def lastLabel (d : Text) : Text :=
  (d.reverse.takeWhile (fun c => !(c = '.'))).reverse

/-- Python `str.capitalize()`: first character upper-cased, rest lower-cased. -/
def pyCapitalize : Text → Text
  | [] => []
  | c :: r => Char.toUpper c :: lowerText r

/-! ## Intent classification (`hr_conversational_agent.py`, lines 216-232) -/

/-- The eight generation keywords of `HRConversationalAgent._is_email_request`. -/
def email_keywords : List Text :=
  [("prepare email").data, ("create email").data, ("write email").data,
   ("draft email").data, ("generate email").data, ("compose email").data,
   ("make email").data, ("email to candidate").data]

/-- The six send keywords of `HRConversationalAgent._is_send_request`. -/
def send_keywords : List Text :=
  [("send email").data, ("send it").data, ("send the email").data,
   ("send now").data, ("dispatch email").data, ("email send").data]

/-- `HRConversationalAgent._is_email_request`: case-insensitive substring
match against the generation keywords. -/
def is_email_request (q : Text) : Bool :=
  email_keywords.any (fun k => containsSub (lowerText q) k)

/-- `HRConversationalAgent._is_send_request`: case-insensitive substring
match against the send keywords. -/
def is_send_request (q : Text) : Bool :=
  send_keywords.any (fun k => containsSub (lowerText q) k)

inductive Intent
  | generateEmailIntent
  | sendEmailIntent
  | queryIntent
deriving DecidableEq

/-- The dispatch order of `HRConversationalAgent.chat` (lines 155-166):
generation keywords are checked first, then send keywords, else plain query. -/
def classifyIntent (q : Text) : Intent :=
  if is_email_request q then Intent.generateEmailIntent
  else if is_send_request q then Intent.sendEmailIntent
  else Intent.queryIntent

/-! ## Model provider resolver (`get_llm_model` in both agent modules) -/

inductive ModelHandle
  | gemini
  | deepseek
deriving DecidableEq

inductive ProviderError
  | noProviderAvailable
deriving DecidableEq

/-- `get_llm_model` (`resume_analysis_agent.py` lines 25-66 and
`hr_conversational_agent.py` lines 27-69): try Gemini when the import
succeeded and its key is set; on a construction failure fall through to
DeepSeek; when that too is keyless or fails to construct, raise
`ValueError` (the specification's `NoProviderAvailable`).
`gAvail` models `GEMINI_AVAILABLE`; empty key text models an absent key;
`gCtor`/`dCtor` model whether the respective constructor call succeeds. -/
def get_llm_model (gAvail : Bool) (gKey dKey : Text) (gCtor dCtor : Bool) :
    Except ProviderError ModelHandle :=
  if gAvail && !gKey.isEmpty then
    if gCtor then Except.ok ModelHandle.gemini
    else if !dKey.isEmpty then
      if dCtor then Except.ok ModelHandle.deepseek
      else Except.error ProviderError.noProviderAvailable
    else Except.error ProviderError.noProviderAvailable
  else if !dKey.isEmpty then
    if dCtor then Except.ok ModelHandle.deepseek
    else Except.error ProviderError.noProviderAvailable
  else Except.error ProviderError.noProviderAvailable

/-! ## Log sanitisation (`utils/logger.py`, lines 18-46) -/

/-- The masked form used by `sanitize_error_message`:
`key[:4] + "***" + key[-4:]` when the key is longer than 8 characters,
otherwise the literal `"***"`. -/
def maskKey (k : Text) : Text :=
  if k.length > 8 then k.take 4 ++ ("***").data ++ k.drop (k.length - 4)
  else ("***").data

/-- `sanitize_error_message(error_msg, sensitive_keys)`: for each configured
secret, when it is non-empty and longer than 4 characters, replace every
occurrence in the message by its masked form; shorter secrets are skipped. -/
def sanitize_error_message (msg : Text) (sensitive_keys : List Text) : Text :=
  sensitive_keys.foldl
    (fun acc k =>
      if (!k.isEmpty) && k.length > 4 then replaceAll acc k (maskKey k) else acc)
    msg

/-! ## Email extraction (`resume_analysis_agent.py`, lines 69-122)

The two `re` patterns are hand-compiled.  Greedy quantifiers followed by
required literals backtrack; the compilation below enumerates candidate
quantifier lengths longest-first, which reproduces the backtracking
preference order of the Python engine for these patterns. -/

/-- The character class `[A-Za-z0-9._%+-]` of the local part. -/
def localClass (c : Char) : Bool :=
  c.isAlphanum || c = '.' || c = '_' || c = '%' || c = '+' || c = '-'

/-- The character class `[A-Za-z0-9.-]` of the domain run. -/
def domClass (c : Char) : Bool := c.isAlphanum || c = '.' || c = '-'

/-- The character class `[A-Z|a-z]` of the final label (the literal `|`
inside the class is part of the source pattern). -/
def tldClass (c : Char) : Bool := c.isAlpha || c = '|'

/-- The delimiter class `[\s\n\r\t,;:()\[\]{}"'<>]` of the primary pattern. -/
def isB1 (c : Char) : Bool :=
  pyIsSpace c ||
  c = ',' || c = ';' || c = ':' || c = '(' || c = ')' ||
  c = '[' || c = ']' || c = '\x7b' || c = '\x7d' ||
  c = '\x22' || c = '\x27' || c = '<' || c = '>'

/-- Backtracking search for `\.[A-Z|a-z]{2,}⟨closer⟩` with the final-label
run tried longest-first; `closer` receives the label and the remainder. -/
def tldSearch (closer : Text → Text → Bool) (tstart : Text) : Nat → Option (Text × Text)
  | 0 => none
  | Nat.succ m =>
    if m = 0 then none
    else
      let T := tstart.take (m + 1)
      let rest := tstart.drop (m + 1)
      if closer T rest then some (T, rest) else tldSearch closer tstart m

/-- Backtracking search for `[A-Za-z0-9.-]{1,}\.[A-Z|a-z]{2,}⟨closer⟩` with
the domain run tried longest-first. -/
def domSearch (closer : Text → Text → Bool) (rest3 : Text) : Nat → Option (Text × Text)
  | 0 => none
  | Nat.succ k =>
    let D := rest3.take (k + 1)
    let after := rest3.drop (k + 1)
    match after with
    | '.' :: tstart =>
      (match tldSearch closer tstart ((tstart.takeWhile tldClass).length) with
       | some (T, rest) => some (D ++ '.' :: T, rest)
       | none => domSearch closer rest3 k)
    | _ => domSearch closer rest3 k

/-- Attempt to match the shared email core
`[A-Za-z0-9][A-Za-z0-9._%+-]{2,}@[A-Za-z0-9][A-Za-z0-9.-]{1,}\.[A-Z|a-z]{2,}`
at the head of `cs`, returning the matched address and the remainder.
The local run is deterministic because `@` is outside its class. -/
def matchEmailAt (closer : Text → Text → Bool) (cs : Text) : Option (Text × Text) :=
  match cs with
  | [] => none
  | c0 :: rest =>
    if c0.isAlphanum then
      let lrun := rest.takeWhile localClass
      let rest2 := rest.dropWhile localClass
      if lrun.length ≥ 2 then
        match rest2 with
        | '@' :: d0 :: rest3 =>
          if d0.isAlphanum then
            match domSearch closer rest3 ((rest3.takeWhile domClass).length) with
            | some (dom, restAfter) => some (c0 :: (lrun ++ '@' :: d0 :: dom), restAfter)
            | none => none
          else none
        | _ => none
      else none
    else none

/-- Closer of the primary pattern: `(?:[\s\n\r\t,;:()\[\]{}"'<>]|$)`. -/
def primaryCloser (_T rest : Text) : Bool :=
  match rest with
  | [] => true
  | c :: _ => isB1 c

/-- Closer of the fallback pattern: the word boundary `\b` after the label. -/
def fallbackCloser (T rest : Text) : Bool :=
  let lw := match T.getLast? with
    | some c => wordChar c
    | none => false
  match rest with
  | [] => lw
  | c :: _ => lw != wordChar c

/-- Drop the delimiter character consumed by the primary closer (none is
consumed when the match ended at the end of the text). -/
def consumeCloser : Text → Text
  | [] => []
  | _ :: r => r

/-- `re.findall` for the primary pattern: scan left to right, resuming after
the end of each full match; the leading alternative `(?:^|[delims])` tries
`^` (only at the very start) before consuming a delimiter character. -/
def primaryScan : Nat → Bool → Text → List Text
  | 0, _, _ => []
  | Nat.succ fuel, atStart, cs =>
    match (if atStart then matchEmailAt primaryCloser cs else none) with
    | some (e, rest) => e :: primaryScan fuel false (consumeCloser rest)
    | none =>
      match cs with
      | [] => []
      | c :: rest1 =>
        if isB1 c then
          match matchEmailAt primaryCloser rest1 with
          | some (e, rest) => e :: primaryScan fuel false (consumeCloser rest)
          | none => primaryScan fuel false rest1
        else primaryScan fuel false rest1

def primaryFindAll (cs : Text) : List Text := primaryScan (cs.length + 1) true cs

/-- `re.findall` for the fallback pattern, tracking the previous character
to evaluate the leading `\b`. -/
def fallbackScan : Nat → Option Char → Text → List Text
  | 0, _, _ => []
  | Nat.succ fuel, prev, cs =>
    let bOk := match prev with
      | none => true
      | some p => !wordChar p
    match (if bOk then matchEmailAt fallbackCloser cs else none) with
    | some (e, rest) => e :: fallbackScan fuel e.getLast? rest
    | none =>
      match cs with
      | [] => []
      | c :: rest1 => fallbackScan fuel (some c) rest1

def fallbackFindAll (cs : Text) : List Text := fallbackScan (cs.length + 1) none cs

/-- The prefix-stripping pass of `extract_email_from_text` (line 81-82):
five sequential `str.replace` calls. -/
def cleanText (s : Text) : Text :=
  [("Email:").data, ("email:").data, ("E-mail:").data,
   ("Contact:").data, ("contact:").data].foldl
    (fun acc p => replaceAll acc p []) s

/-- The manual boundary validation applied to each fallback candidate
(lines 100-116): a two-part `split('@')`, a local part of length ≥ 2, a
dotted domain with a final label of length ≥ 2, and the characters around
the first occurrence of the candidate in the text must not be alphanumeric
(`@` and `.` excepted). -/
def validEmailInText (text m : Text) : Bool :=
  match splitOnChar '@' m with
  | [l, d] =>
    l.length ≥ 2 && d.contains '.' && (lastLabel d).length ≥ 2 &&
    (match findSub text m with
     | some i =>
       let cb := if i > 0 then text.getD (i - 1) ' ' else ' '
       let ca := if i + m.length < text.length then text.getD (i + m.length) ' ' else ' '
       (!(cb.isAlphanum && !(cb = '@' || cb = '.'))) &&
       (!(ca.isAlphanum && !(ca = '@' || ca = '.')))
     | none => false)
  | _ => false

/-- `extract_email_from_text` (lines 69-122): clean the text, try the
primary delimited pattern and return the longest match stripped; otherwise
run the fallback pattern, keep the validated candidates, and return the
longest of them; otherwise `none`. -/
def extract_email_from_text (s : Text) : Option Text :=
  let text := cleanText s
  let found := primaryFindAll text
  if !found.isEmpty then some (pyStrip (maxByLen found))
  else
    let valid := (fallbackFindAll text).filter (validEmailInText text)
    if !valid.isEmpty then some (maxByLen valid) else none

/-- String-level wrapper of `extract_email_from_text`. -/
def extractEmailS (s : String) : Option String :=
  (extract_email_from_text s.data).map (fun l => String.mk l)

/-- Well-formedness of an extracted address, as asserted by the
specification: exactly one `@`, a dotted domain, a final label of at least
two characters. -/
def wellFormedEmail (e : Text) : Bool :=
  e.count '@' = 1 &&
  (let d := (e.dropWhile (fun c => !(c = '@'))).tail
   d.contains '.' && (lastLabel d).length ≥ 2)

/-- Structural decomposition of every address matched by the shared email
core: one-character alphanumeric heads, a class-restricted local run of
length ≥ 2, a class-restricted domain run, a literal dot and a final label
of length ≥ 2. -/
def EmailShape (e : Text) : Prop :=
  ∃ c0 lrun d0 D T,
    e = c0 :: (lrun ++ '@' :: d0 :: (D ++ '.' :: T)) ∧
    c0.isAlphanum = true ∧ (∀ c ∈ lrun, localClass c = true) ∧ 2 ≤ lrun.length ∧
    d0.isAlphanum = true ∧ (∀ c ∈ D, domClass c = true) ∧ 1 ≤ D.length ∧
    (∀ c ∈ T, tldClass c = true) ∧ 2 ≤ T.length

/-! ## Manual extraction fallback (`resume_analysis_agent.py`, lines 226-273) -/

/-- Digits-to-number accumulator (the value of a `\d+` group). -/
def natOfDigits (l : Text) : Nat := l.foldl (fun a c => a * 10 + (c.toNat - 48)) 0

/-- Match of `(\d+(?:\.\d+)?)\s*%` anchored at the head of `u`, returning the
numeric value of the captured group.  The quantifiers are deterministic
here: a shortened digit run leaves a digit in front of the required `%`. -/
def pctAt (u : Text) : Option ℚ :=
  match u with
  | [] => none
  | c :: _ =>
    if c.isDigit then
      let ds := u.takeWhile Char.isDigit
      let r1 := u.drop ds.length
      match r1 with
      | '.' :: r2 =>
        let fs := r2.takeWhile Char.isDigit
        if fs.isEmpty then none
        else
          match (r2.drop fs.length).dropWhile pyIsSpace with
          | '%' :: _ =>
            some ((natOfDigits ds : ℚ) + (natOfDigits fs : ℚ) / ((10 : ℚ) ^ fs.length))
          | _ => none
      | _ =>
        match r1.dropWhile pyIsSpace with
        | '%' :: _ => some ((natOfDigits ds : ℚ))
        | _ => none
    else none

/-- `re.search(r'(\d+(?:\.\d+)?)\s*%', t)`: value of the leftmost match. -/
def firstPercent : Text → Option ℚ
  | [] => none
  | c :: r =>
    match pctAt (c :: r) with
    | some q => some q
    | none => firstPercent r

/-- `[Jj]unior` occurs in `t`. -/
def matchJunior (t : Text) : Bool :=
  containsSub t ("Junior").data || containsSub t ("junior").data

/-- The twelve strings generated by `[Mm]id[- ]?level|[Mm]id[- ]?senior`. -/
def midVariants : List Text :=
  ([ "Midlevel", "Mid-level", "Mid level", "midlevel", "mid-level", "mid level",
     "Midsenior", "Mid-senior", "Mid senior", "midsenior", "mid-senior",
     "mid senior" ] : List String).map String.data

def matchMid (t : Text) : Bool := midVariants.any (fun v => containsSub t v)

/-- The lookahead `\s+level` succeeds at `t`: one or more whitespace
characters followed by the literal `level`. -/
def spacesThenLevel (t : Text) : Bool :=
  (List.range (t.takeWhile pyIsSpace).length).any
    (fun j => ("level").data.isPrefixOf (t.drop (j + 1)))

/-- `[Ss]enior(?!\s+level)` matches at the head of `u`. -/
def seniorHitAt (u : Text) : Bool :=
  (("Senior").data.isPrefixOf u || ("senior").data.isPrefixOf u) &&
  !spacesThenLevel (u.drop 6)

/-- `re.search(r'[Ss]enior(?!\s+level)', t)` succeeds somewhere in `t`. -/
def matchSenior : Text → Bool
  | [] => false
  | c :: r => seniorHitAt (c :: r) || matchSenior r

/-- `[Ll]ead|[Ll]eader` occurs in `t` (the second alternative is subsumed). -/
def matchLead (t : Text) : Bool :=
  containsSub t ("Lead").data || containsSub t ("lead").data

def matchExecutive (t : Text) : Bool :=
  containsSub t ("Executive").data || containsSub t ("executive").data

def matchHigh (t : Text) : Bool :=
  containsSub t ("High").data || containsSub t ("high").data

def matchMedium (t : Text) : Bool :=
  containsSub t ("Medium").data || containsSub t ("medium").data

def matchLow (t : Text) : Bool :=
  containsSub t ("Low").data || containsSub t ("low").data

/-- The dictionary produced by `extract_analysis_manually`. -/
structure ManualAnalysis where
  match_percentage : ℚ
  position_level : Text
  acceptance_probability : Text
  acceptance_reasoning : Text
  key_strengths : List Text
  key_gaps : List Text
  detailed_analysis : Text
  recommendation : Text
deriving DecidableEq

/-- `extract_analysis_manually(response_text)`: percentage from the leftmost
`NN%` token, position level from the first matching pattern in the fixed
order Junior, Mid-level, Senior, Lead, Executive, acceptance probability
from High/Medium/Low in that priority order, and the full raw text kept as
`detailed_analysis`. -/
def extract_analysis_manually (response_text : Text) : ManualAnalysis where
  match_percentage := (firstPercent response_text).getD 0
  position_level :=
    if matchJunior response_text then ("Junior").data
    else if matchMid response_text then ("Mid-level").data
    else if matchSenior response_text then ("Senior").data
    else if matchLead response_text then ("Lead").data
    else if matchExecutive response_text then ("Executive").data
    else ("Unknown").data
  acceptance_probability :=
    if matchHigh response_text then ("High").data
    else if matchMedium response_text then ("Medium").data
    else if matchLow response_text then ("Low").data
    else ("Unknown").data
  acceptance_reasoning := []
  key_strengths := []
  key_gaps := []
  detailed_analysis := response_text
  recommendation := []

/-! ## `matchPercentage` normalisation (`resume_analysis_agent.py`, lines 205-215) -/

/-- Modelled from the Python builtin `float(str)`: strip whitespace, optional
sign, decimal mantissa with at least one digit, optional exponent; the
special `inf`/`nan` and underscore forms are out of scope here. -/
def pyFloatOfString (l : Text) : Option ℚ :=
  let s := pyStrip l
  let signed : ℚ × Text :=
    match s with
    | '+' :: r => (1, r)
    | '-' :: r => (-1, r)
    | _ => (1, s)
  let s1 := signed.2
  let ip := s1.takeWhile Char.isDigit
  let r1 := s1.drop ip.length
  let fracked : Text × Text :=
    match r1 with
    | '.' :: rr => (rr.takeWhile Char.isDigit, rr.drop (rr.takeWhile Char.isDigit).length)
    | _ => ([], r1)
  let fp := fracked.1
  let r2 := fracked.2
  if ip.isEmpty && fp.isEmpty then none
  else
    let mant : ℚ := (natOfDigits ip : ℚ) + (natOfDigits fp : ℚ) / ((10 : ℚ) ^ fp.length)
    match r2 with
    | [] => some (signed.1 * mant)
    | e :: r3 =>
      if e = 'e' || e = 'E' then
        let esigned : Int × Text :=
          match r3 with
          | '+' :: rr => (1, rr)
          | '-' :: rr => (-1, rr)
          | _ => (1, r3)
        let ed := esigned.2.takeWhile Char.isDigit
        if ed.isEmpty || !(esigned.2.drop ed.length).isEmpty then none
        else some (signed.1 * mant * (10 : ℚ) ^ (esigned.1 * (natOfDigits ed : Int)))
      else none

/-- A JSON-ish value sitting in `analysis_result["match_percentage"]`. -/
inductive JVal
  | num (q : ℚ)
  | str (s : Text)
deriving DecidableEq

/-- Lines 205-215 of `analyze_resume`: coerce the field with `float(...)`;
on a `ValueError`/`TypeError`, regex-search `str(value)` for a percentage
token; otherwise default to `0.0`.  (`float` never fails on a number, and
`str` of a Python string is the string itself.) -/
def normalizeMatchPercentage : JVal → ℚ
  | JVal.num q => q
  | JVal.str s =>
    match pyFloatOfString s with
    | some q => q
    | none =>
      match firstPercent s with
      | some q => q
      | none => 0

/-! ## Conversational agent (`hr_conversational_agent.py`, lines 72-395)

The LLM is abstracted as a function parameter (`llm` for plain prompts,
`llmChat` for the message-list chain of a plain query), the missing
`utils.formatter.format_email` module as a parameter `fmt`, and the SMTP
transport as a `Transport` value.  The rendered candidate-summary lines of
the prompts are abstracted into the opaque `resumeContext` field: their
contents decide none of the claims. -/

/-- A cached draft, `self.generated_email` (subject/body/to). -/
structure Draft where
  subject : Text
  body : Text
  toAddr : Text
deriving DecidableEq

/-- A message stored in `self.message_history`. -/
inductive Msg
  | system (content : Text)
  | human (content : Text)
  | ai (content : Text)
deriving DecidableEq

def isSystemMsg : Msg → Bool
  | Msg.system _ => true
  | _ => false

def msgContent : Msg → Text
  | Msg.system c => c
  | Msg.human c => c
  | Msg.ai c => c

/-- A rendered prompt message handed to the model for a plain query. -/
inductive PMsg
  | system (content : Text)
  | human (content : Text)
  | ai (content : Text)
deriving DecidableEq

def toPMsg : Msg → PMsg
  | Msg.system c => PMsg.system c
  | Msg.human c => PMsg.human c
  | Msg.ai c => PMsg.ai c

/-- The mutable state of an `HRConversationalAgent`. -/
structure AgentState where
  resumeContext : Text
  jobDescription : Text
  candidateEmail : Text
  hrName : Text
  history : List Msg
  draft : Option Draft
deriving DecidableEq

/-- The system context block built by `_initialize_context` (lines 100-138);
candidate-summary rendering abstracted, job description truncated to its
2500-character budget as in the source. -/
def contextBlock (st : AgentState) : Text :=
  st.resumeContext ++ st.jobDescription.take 2500

/-- `__init__` (lines 78-98): fresh history holding the single system
context message, and no cached draft. -/
def initAgent (resumeContext jobDescription candidateEmail hrName : Text) : AgentState :=
  let st0 : AgentState :=
    { resumeContext, jobDescription, candidateEmail, hrName,
      history := [], draft := none }
  { st0 with history := [Msg.system (contextBlock st0)] }

/-- The character class `[:\s]` of the subject regex. -/
def subjClass (c : Char) : Bool := c = ':' || pyIsSpace c

/-- Backtracking over the greedy `[:\s]+` run (longest first): capture
`[^\n]+` starting at the first position after at least one class character
that carries a non-newline character. -/
def subjTail (v : Text) : Nat → Option Text
  | 0 => none
  | Nat.succ j =>
    match v.drop (j + 1) with
    | c :: r =>
      if c = '\n' then subjTail v j
      else some ((c :: r).takeWhile (fun d => !(d = '\n')))
    | [] => subjTail v j

/-- Match of `subject[:\s]+([^\n]+)` (case-insensitive) at the head of `u`. -/
def subjAt (u : Text) : Option Text :=
  if lowerText (u.take 7) = ("subject").data then
    subjTail (u.drop 7) ((u.drop 7).takeWhile subjClass).length
  else none

/-- `re.search(r'subject[:\s]+([^\n]+)', query, re.IGNORECASE)`: captured
group of the leftmost match. -/
def extractSubject : Text → Option Text
  | [] => none
  | c :: r =>
    match subjAt (c :: r) with
    | some g => some g
    | none => extractSubject r

/-- The email-generation prompt of `_generate_email` (lines 249-260). -/
def emailPrompt (st : AgentState) (q : Text) : Text :=
  ("Generate a professional email to the candidate based on the following instructions:\n\nHR Instructions: ").data
    ++ q
    ++ ("\n\nJob Description Context:\n").data ++ st.jobDescription.take 1000
    ++ ("...\n\nCandidate Context:\n").data ++ st.resumeContext
    ++ ("\n\nGenerate ONLY the email body content (without subject, greeting, or signature). Make it professional, personalized, and relevant. Include specific details from the job description. Keep it concise but comprehensive.").data

/-- `_extract_candidate_name` (lines 282-288). -/
def extractCandidateName (st : AgentState) : Text :=
  if st.candidateEmail.contains '@' then
    pyCapitalize ((splitOnChar '.' ((splitOnChar '@' st.candidateEmail).headD [])).headD [])
  else ("Candidate").data

/-- `_generate_email` (lines 234-280): pick the subject, ask the model for a
body, cache the draft (stripped body, candidate recipient), and return the
confirmation text; the conversation history is not touched. -/
def generate_email (llm : Text → Text) (fmt : Text → Text → Text → Text → Text)
    (st : AgentState) (q : Text) : Text × AgentState :=
  let subject :=
    match extractSubject q with
    | some g => pyStrip g
    | none => ("Regarding Your Application").data
  let body := pyStrip (llm (emailPrompt st q))
  let st' := { st with draft := some ⟨subject, body, st.candidateEmail⟩ }
  let formatted := fmt subject (extractCandidateName st) body st.hrName
  (("Email generated successfully!\n\n").data ++ formatted
     ++ ("\n\nSay \x27send email\x27 or \x27send it\x27 to send this email to ").data
     ++ st.candidateEmail ++ (".").data,
   st')

/-- The four SMTP parameters; the empty text stands for Python `None` or an
empty configured value (both falsy under `or` and `all`). -/
structure SmtpParams where
  username : Text
  password : Text
  server : Text
  port : Text
deriving DecidableEq

/-- Python `a or b` on falsy-is-empty text. -/
def pyOr (a b : Text) : Text := if a.isEmpty then b else a

/-- Lines 350-353: each caller-supplied parameter falls back independently
to the process-wide configuration default. -/
def resolveParams (given defaults : SmtpParams) : SmtpParams where
  username := pyOr given.username defaults.username
  password := pyOr given.password defaults.password
  server := pyOr given.server defaults.server
  port := pyOr given.port defaults.port

/-- Outcome of the SMTP session (connect/starttls/login/send, lines 373-379),
abstracting authentication and connection errors as `err`. -/
inductive Transport
  | ok
  | err (msg : Text)
deriving DecidableEq

/-- What was handed to the transport, when a network call was attempted. -/
structure SentMail where
  subject : Text
  body : Text
  recipient : Text
deriving DecidableEq

/-- Result of `_send_email_to_candidate`, refining its boolean: the source
returns `False` both for missing credentials (line 355-357, before any
network activity) and for a caught transport exception (lines 383-385). -/
inductive SendResult
  | missingCredentials
  | sentOk
  | transportFailure (msg : Text)
deriving DecidableEq

/-- The boolean actually returned by `_send_email_to_candidate`. -/
def SendResult.toBool : SendResult → Bool
  | SendResult.sentOk => true
  | _ => false

/-- `_send_email_to_candidate` (lines 326-385): resolve the four parameters,
fail before any network call when one is still empty, otherwise attempt the
SMTP session; every exception is caught and mapped to a result value. -/
def send_email_to_candidate (net : Transport) (given defaults : SmtpParams)
    (subject body recipient : Text) : SendResult × Option SentMail :=
  let p := resolveParams given defaults
  if p.username.isEmpty || p.password.isEmpty || p.server.isEmpty || p.port.isEmpty then
    (SendResult.missingCredentials, none)
  else
    match net with
    | Transport.ok => (SendResult.sentOk, some ⟨subject, pyStrip body, recipient⟩)
    | Transport.err m => (SendResult.transportFailure m, some ⟨subject, pyStrip body, recipient⟩)

/-- Line 305: the distinguished nothing-to-send reply. -/
def noDraftMessage : Text :=
  ("No email has been generated yet. Please generate an email first by saying \x27prepare email\x27 or \x27create email\x27.").data

/-- `_handle_send_request` (lines 290-324): without a cached draft, return
the nothing-to-send reply; otherwise dispatch the cached subject and body to
the candidate address and report the boolean outcome as a message.  The
state (in particular the cached draft) is never modified. -/
def handle_send_request (net : Transport) (given defaults : SmtpParams)
    (st : AgentState) : Text × AgentState × Option SentMail :=
  match st.draft with
  | none => (noDraftMessage, st, none)
  | some d =>
    let r := send_email_to_candidate net given defaults d.subject d.body st.candidateEmail
    if r.1.toBool then
      (("✅ Email sent successfully to ").data ++ st.candidateEmail ++ ("!").data, st, r.2)
    else
      (("❌ Failed to send email to ").data ++ st.candidateEmail
         ++ (". Please check your email configuration.").data, st, r.2)

/-- Lines 170-184 with the line-177 safety branch: when no system message is
present, `_initialize_context()` is re-run, appending one to the history. -/
def historyWithContext (st : AgentState) : List Msg :=
  if (st.history.filter isSystemMsg).isEmpty then
    st.history ++ [Msg.system (contextBlock st)]
  else st.history

/-- Lines 170-198: the message list of a plain-query model invocation — the
first system message of the history, then the non-system conversation
messages in order, then the current user input. -/
def queryMessages (st : AgentState) (q : Text) : List PMsg :=
  let hist1 := historyWithContext st
  (match (hist1.filter isSystemMsg).head? with
   | some m => [PMsg.system (msgContent m)]
   | none => []) ++
  (hist1.filter (fun m => !isSystemMsg m)).map toPMsg ++
  [PMsg.human q]

/-- Lines 168-214 (the plain-query branch of `chat`): invoke the chain on
the assembled messages, then append the user message and the model reply to
the history. -/
def queryStep (llmChat : List PMsg → Text) (st : AgentState) (q : Text) :
    Text × AgentState :=
  let resp := llmChat (queryMessages st q)
  (resp, { st with history := historyWithContext st ++ [Msg.human q, Msg.ai resp] })

/-- `chat` (lines 140-214): generation keywords first, send keywords second,
plain query otherwise.  The third component records any attempted network
dispatch. -/
def chat (llm : Text → Text) (llmChat : List PMsg → Text)
    (fmt : Text → Text → Text → Text → Text) (net : Transport)
    (given defaults : SmtpParams) (st : AgentState) (q : Text) :
    Text × AgentState × Option SentMail :=
  if is_email_request q then
    let r := generate_email llm fmt st q
    (r.1, r.2, none)
  else if is_send_request q then
    handle_send_request net given defaults st
  else
    let r := queryStep llmChat st q
    (r.1, r.2, none)

/-- Number of system messages in a history. -/
def countSystem (h : List Msg) : Nat := (h.filter isSystemMsg).length

/-! ## Helper lemmas -/

theorem mem_of_getLastEq {l : Text} {c : Char} (h : l.getLast? = some c) : c ∈ l := by
  cases l with
  | nil => simp at h
  | cons a t =>
    rw [List.getLast?_eq_getLast _ (by simp)] at h
    exact (Option.some.inj h) ▸ List.getLast_mem _

theorem containsSub_exists {t p : Text} (h : containsSub t p = true) :
    ∃ pre post, t = pre ++ p ++ post := by
  induction t with
  | nil =>
    simp only [containsSub, findSub] at h
    split at h
    · next hp =>
      have := List.isPrefixOf_iff_prefix.mp hp
      rcases this with ⟨post, hpost⟩
      exact ⟨[], post, by simp [← hpost]⟩
    · simp at h
  | cons c r ih =>
    simp only [containsSub, findSub] at h
    split at h
    · next hp =>
      rcases List.isPrefixOf_iff_prefix.mp hp with ⟨post, hpost⟩
      exact ⟨[], post, by simp [← hpost]⟩
    · next hp =>
      have h2 : containsSub r p = true := by
        simp only [containsSub]
        cases hf : findSub r p with
        | none => rw [hf] at h; simp at h
        | some i => rfl
      rcases ih h2 with ⟨pre, post, hsplit⟩
      exact ⟨c :: pre, post, by simp [hsplit]⟩

theorem length_le_of_containsSub {t p : Text} (h : containsSub t p = true) :
    p.length ≤ t.length := by
  rcases containsSub_exists h with ⟨pre, post, rfl⟩
  simp; omega

theorem replaceAllF_nil (fuel : Nat) (pat rep : Text) :
    replaceAllF fuel [] pat rep = [] := by
  cases fuel <;> rfl

theorem replaceAll_self (k rep : Text) (hk : k ≠ []) : replaceAll k k rep = rep := by
  cases k with
  | nil => exact absurd rfl hk
  | cons c r =>
    simp only [replaceAll, List.length_cons, replaceAllF]
    rw [if_pos]
    · simp only [List.drop_succ_cons]
      rw [show r.drop r.length = [] from List.drop_length r, replaceAllF_nil]
      simp
    · simp only [List.isEmpty_cons, Bool.not_false, Bool.true_and]
      exact List.isPrefixOf_iff_prefix.mpr (List.prefix_refl _)

theorem maxByLen_mem : ∀ (l : List Text), l ≠ [] → maxByLen l ∈ l := by
  have key : ∀ (t : List Text) (a : Text),
      t.foldl (fun x b => if b.length > x.length then b else x) a = a ∨
      t.foldl (fun x b => if b.length > x.length then b else x) a ∈ t := by
    intro t
    induction t with
    | nil => intro a; left; rfl
    | cons b t ih =>
      intro a
      simp only [List.foldl_cons]
      rcases ih (if b.length > a.length then b else a) with h | h
      · rw [h]
        by_cases hb : b.length > a.length
        · right; simp [hb]
        · left; simp [hb]
      · right; exact List.mem_cons_of_mem _ h
  intro l hl
  cases l with
  | nil => exact absurd rfl hl
  | cons h t =>
    simp only [maxByLen]
    rcases key t h with hc | hc
    · rw [hc]; exact List.mem_cons_self _ _
    · exact List.mem_cons_of_mem _ hc

theorem maxByLen_ge : ∀ (l : List Text) (a : Text), a ∈ l →
    a.length ≤ (maxByLen l).length := by
  have step : ∀ (x b : Text),
      x.length ≤ (if b.length > x.length then b else x).length ∧
      b.length ≤ (if b.length > x.length then b else x).length := by
    intro x b
    by_cases hb : b.length > x.length <;> simp [hb] <;> omega
  have key : ∀ (t : List Text) (x : Text),
      x.length ≤ (t.foldl (fun y b => if b.length > y.length then b else y) x).length ∧
      ∀ a ∈ t, a.length ≤ (t.foldl (fun y b => if b.length > y.length then b else y) x).length := by
    intro t
    induction t with
    | nil => intro x; exact ⟨le_refl _, by simp⟩
    | cons b t ih =>
      intro x
      simp only [List.foldl_cons]
      refine ⟨le_trans (step x b).1 (ih _).1, ?_⟩
      intro a ha
      rcases List.mem_cons.mp ha with rfl | ha
      · exact le_trans (step x a).2 (ih _).1
      · exact (ih _).2 a ha
  intro l a ha
  cases l with
  | nil => simp at ha
  | cons h t =>
    simp only [maxByLen]
    rcases List.mem_cons.mp ha with rfl | ha
    · exact (key t a).1
    · exact (key t h).2 a ha

theorem dropWhile_append_all {p : Char → Bool} {pre suf : Text}
    (h : ∀ c ∈ pre, p c = true) :
    (pre ++ suf).dropWhile p = suf.dropWhile p := by
  induction pre with
  | nil => rfl
  | cons c r ih =>
    simp only [List.cons_append, List.dropWhile_cons, h c (List.mem_cons_self _ _)]
    exact ih (fun d hd => h d (List.mem_cons_of_mem _ hd))

theorem takeWhile_append_stop {p : Char → Bool} {A B : Text} {x : Char}
    (hA : ∀ c ∈ A, p c = true) (hx : p x = false) :
    (A ++ x :: B).takeWhile p = A := by
  induction A with
  | nil => rw [List.nil_append, List.takeWhile_cons, hx]; simp
  | cons c r ih =>
    simp only [List.cons_append, List.takeWhile_cons, hA c (List.mem_cons_self _ _)]
    simp [ih (fun d hd => hA d (List.mem_cons_of_mem _ hd))]

theorem all_take_of_le_takeWhile {p : Char → Bool} {l : Text} {n : Nat}
    (h : n ≤ (l.takeWhile p).length) : ∀ c ∈ l.take n, p c = true := by
  intro c hc
  have htake : l.take n = (l.takeWhile p).take n := by
    conv_lhs => rw [← List.takeWhile_append_dropWhile (p := p) (l := l)]
    exact List.take_append_of_le_length h
  rw [htake] at hc
  exact List.mem_takeWhile_imp (List.mem_of_mem_take hc)

/-! ## C1: intent classification priority -/

/-- C1: intent classification checks the GenerateEmail keyword set before the
SendEmail keyword set via case-insensitive substring matching and falls
through to Query when neither matches; the three spec examples resolve to
GenerateEmail, SendEmail and Query respectively. -/
theorem intent_priority_and_examples :
    (∀ u : Text, is_email_request u = true →
      classifyIntent u = Intent.generateEmailIntent) ∧
    (∀ u : Text, is_email_request u = false → is_send_request u = true →
      classifyIntent u = Intent.sendEmailIntent) ∧
    (∀ u : Text, is_email_request u = false → is_send_request u = false →
      classifyIntent u = Intent.queryIntent) ∧
    classifyIntent ("Please draft email for candidate").data = Intent.generateEmailIntent ∧
    classifyIntent ("send the email now").data = Intent.sendEmailIntent ∧
    classifyIntent ("What is the candidate\x27s experience?").data = Intent.queryIntent := by
  refine ⟨?_, ?_, ?_, by decide, by decide, by decide⟩
  · intro u h; simp [classifyIntent, h]
  · intro u h1 h2; simp [classifyIntent, h1, h2]
  · intro u h1 h2; simp [classifyIntent, h1, h2]

/-- Witness for C1 at the spec's dual-keyword utterance: it contains both a
generate-keyword and a send-keyword, and resolves to GenerateEmail. -/
theorem intent_priority_witness :
    classifyIntent ("draft email then send email").data = Intent.generateEmailIntent :=
  intent_priority_and_examples.1 (("draft email then send email").data) (by decide)

/-! ## C7: provider resolver fallback -/

/-- C7: the resolver iterates the backends in fixed preference order — with
Gemini configured and constructible it is selected; with the Gemini
credential absent and the DeepSeek credential present the resolver selects
DeepSeek without raising; when the Gemini stage is unavailable, keyless or
fails construction and the DeepSeek stage is keyless or fails construction,
it fails with `NoProviderAvailable`. -/
theorem provider_fallback_order :
    ∀ (gAvail : Bool) (gKey dKey : Text) (gCtor dCtor : Bool),
      (gAvail = true → gKey ≠ [] → gCtor = true →
        get_llm_model gAvail gKey dKey gCtor dCtor = Except.ok ModelHandle.gemini) ∧
      ((gAvail = false ∨ gKey = []) → dKey ≠ [] → dCtor = true →
        get_llm_model gAvail gKey dKey gCtor dCtor = Except.ok ModelHandle.deepseek) ∧
      ((gAvail = false ∨ gKey = [] ∨ gCtor = false) → (dKey = [] ∨ dCtor = false) →
        get_llm_model gAvail gKey dKey gCtor dCtor =
          Except.error ProviderError.noProviderAvailable) := by
  intro gAvail gKey dKey gCtor dCtor
  refine ⟨?_, ?_, ?_⟩
  · intro h1 h2 h3
    simp [get_llm_model, h1, h3, List.isEmpty_eq_true, h2]
  · rintro (rfl | rfl) h2 rfl <;>
      simp [get_llm_model, List.isEmpty_eq_true, h2]
  · intro h1 h2
    simp only [get_llm_model]
    split_ifs <;> try rfl
    all_goals
      (exfalso; rcases h1 with rfl | rfl | rfl <;> rcases h2 with rfl | rfl <;> simp_all)

/-- Witness for C7: primary credential absent, secondary present and
constructible — the secondary is selected; and with both credentials absent
the resolver reports `NoProviderAvailable`. -/
theorem provider_fallback_witness :
    get_llm_model true [] (("dsk-key").data) true true = Except.ok ModelHandle.deepseek ∧
    get_llm_model true [] [] true true = Except.error ProviderError.noProviderAvailable :=
  ⟨(provider_fallback_order true [] (("dsk-key").data) true true).2.1 (Or.inr rfl)
      (by decide) rfl,
   (provider_fallback_order true [] [] true true).2.2 (Or.inr (Or.inl rfl)) (Or.inl rfl)⟩

theorem head_dropWhile_not {p : Char → Bool} : ∀ {l : Text} {c : Char},
    (l.dropWhile p).head? = some c → p c = false := by
  intro l
  induction l with
  | nil => intro c h; simp at h
  | cons a t ih =>
    intro c h
    rw [List.dropWhile_cons] at h
    cases hpa : p a with
    | true => rw [if_pos hpa] at h; exact ih h
    | false =>
      rw [if_neg (by simp [hpa])] at h
      have : a = c := by simpa using h
      exact this ▸ hpa

theorem pyStrip_head {l : Text} {c : Char} (h : (pyStrip l).head? = some c) :
    pyIsSpace c = false := by
  unfold pyStrip at h
  rw [List.head?_reverse] at h
  obtain ⟨t, ht⟩ :=
    List.dropWhile_suffix (l := (l.dropWhile pyIsSpace).reverse) pyIsSpace
  have hYne : (l.dropWhile pyIsSpace).reverse.dropWhile pyIsSpace ≠ [] := by
    intro h0; rw [h0] at h; simp at h
  have hrev : (l.dropWhile pyIsSpace).reverse.getLast? = some c := by
    rw [← ht, List.getLast?_append_of_ne_nil t hYne]; exact h
  rw [List.getLast?_reverse] at hrev
  exact head_dropWhile_not hrev

theorem pyStrip_last {l : Text} {c : Char} (h : (pyStrip l).getLast? = some c) :
    pyIsSpace c = false := by
  unfold pyStrip at h
  rw [List.getLast?_reverse] at h
  exact head_dropWhile_not h

theorem pyStrip_eq_self {l : Text}
    (h1 : ∀ c, l.head? = some c → pyIsSpace c = false)
    (h2 : ∀ c, l.getLast? = some c → pyIsSpace c = false) : pyStrip l = l := by
  cases l with
  | nil => rfl
  | cons a t =>
    have ha : pyIsSpace a = false := h1 a rfl
    obtain ⟨c, rest, hr⟩ : ∃ c rest, (a :: t).reverse = c :: rest := by
      cases hrv : (a :: t).reverse with
      | nil => exact absurd (congrArg List.length hrv) (by simp)
      | cons c rest => exact ⟨c, rest, rfl⟩
    have hc : pyIsSpace c = false := by
      apply h2
      rw [← List.head?_reverse, hr]; rfl
    show (((a :: t).dropWhile pyIsSpace).reverse.dropWhile pyIsSpace).reverse = a :: t
    rw [List.dropWhile_cons, if_neg (by simp [ha]), hr, List.dropWhile_cons,
      if_neg (by simp [hc]), ← hr, List.reverse_reverse]

theorem pyStrip_idem (l : Text) : pyStrip (pyStrip l) = pyStrip l :=
  pyStrip_eq_self (fun _ h => pyStrip_head h) (fun _ h => pyStrip_last h)

/-! ## C8: log redaction -/

/-- C8 counterexample: the secret `abc` is at most 4 characters long, so the
redaction step leaves it untouched and the sanitized output still contains
the configured secret verbatim. -/
theorem sanitize_redaction_counterexample :
    sanitize_error_message (("the key abc leaked").data) [("abc").data]
        = ("the key abc leaked").data ∧
    containsSub (sanitize_error_message (("the key abc leaked").data) [("abc").data])
        (("abc").data) = true := by
  exact ⟨by decide, by decide⟩

/-- C8 amended: the redaction step replaces every verbatim occurrence of a
configured secret longer than 8 characters with its first 4 characters,
`***`, and its last 4 characters; a secret of length 5-8 is replaced
entirely by `***`; a secret of at most 4 characters is left verbatim.  A
message consisting of such a secret (longer than 4 characters and free of
`*`) sanitizes to an output that does not contain the secret. -/
theorem sanitize_redaction_masking :
    ∀ (msg k : Text),
      (k.length ≤ 4 → sanitize_error_message msg [k] = msg) ∧
      (4 < k.length → k.length ≤ 8 →
        sanitize_error_message msg [k] = replaceAll msg k (("***").data)) ∧
      (8 < k.length →
        sanitize_error_message msg [k] =
          replaceAll msg k (k.take 4 ++ ("***").data ++ k.drop (k.length - 4))) ∧
      (4 < k.length → ¬ ('*' ∈ k) →
        containsSub (sanitize_error_message k [k]) k = false) := by
  intro msg k
  have hguard : ∀ m : Text, 4 < k.length →
      sanitize_error_message m [k] = replaceAll m k (maskKey k) := by
    intro m h4
    have hne : k ≠ [] := by intro h0; rw [h0] at h4; simp at h4
    show (if (!k.isEmpty) && k.length > 4 then replaceAll m k (maskKey k) else m) = _
    rw [if_pos (by simp [List.isEmpty_eq_true, hne, h4])]
  refine ⟨?_, ?_, ?_, ?_⟩
  · intro h4
    show (if (!k.isEmpty) && k.length > 4 then replaceAll msg k (maskKey k) else msg) = msg
    rw [if_neg]
    simp only [Bool.and_eq_true, decide_eq_true_eq, not_and]
    intro _; omega
  · intro h4 h8
    rw [hguard msg h4]
    unfold maskKey
    rw [if_neg (by omega)]
  · intro h8
    rw [hguard msg (by omega)]
    unfold maskKey
    rw [if_pos h8]
  · intro h4 hstar
    have hne : k ≠ [] := by intro h0; rw [h0] at h4; simp at h4
    rw [hguard k h4, replaceAll_self k (maskKey k) hne]
    by_cases h8 : 8 < k.length
    · unfold maskKey
      rw [if_pos h8]
      cases hcs : containsSub (k.take 4 ++ ("***").data ++ k.drop (k.length - 4)) k with
      | false => rfl
      | true =>
        exfalso
        rcases containsSub_exists hcs with ⟨pre, post, hsplit⟩
        have hlen4 : (k.take 4).length = 4 := by
          rw [List.length_take]; omega
        have hlend : (k.drop (k.length - 4)).length = 4 := by
          rw [List.length_drop]; omega
        have hpre : pre.length ≤ 2 := by
          have := congrArg List.length hsplit
          simp [List.length_append, hlen4, hlend] at this
          omega
        have hstarAt : (k.take 4 ++ ("***").data ++ k.drop (k.length - 4))[4]? = some '*' := by
          rw [List.getElem?_append_left (by simp [List.length_append, hlen4]),
            List.getElem?_append_right (by rw [hlen4])]
          rw [hlen4]
          rfl
        rw [hsplit] at hstarAt
        rw [List.append_assoc, List.getElem?_append_right (by omega),
          List.getElem?_append_left (by omega)] at hstarAt
        rcases List.getElem?_eq_some.mp hstarAt with ⟨hlt, heq⟩
        exact hstar (heq ▸ List.getElem_mem hlt)
    · unfold maskKey
      rw [if_neg h8]
      cases hcs : containsSub (("***").data) k with
      | false => rfl
      | true =>
        exfalso
        have := length_le_of_containsSub hcs
        simp at this
        omega

/-- Witness for C8: a 10-character secret (no `*`) is longer than 4
characters, and sanitizing a message equal to it yields an output that no
longer contains the secret. -/
theorem sanitize_redaction_masking_witness :
    containsSub (sanitize_error_message (("secretkey1").data) [("secretkey1").data])
      (("secretkey1").data) = false :=
  (sanitize_redaction_masking (("secretkey1").data) (("secretkey1").data)).2.2.2
    (by decide) (by decide)

/-! ## C3: matchPercentage normalisation -/

/-- C3: `matchPercentage` is normalised to a number — a numeric value or a
float-parsable string passes through, a non-parsable string is searched for
its leftmost percentage token, and an unparseable value defaults to 0;
`"73%"` normalises to 73, `"73.5 %"` to 73.5, and `"seventy"` to 0. -/
theorem match_percentage_normalization :
    (∀ q : ℚ, normalizeMatchPercentage (JVal.num q) = q) ∧
    (∀ (s : Text) (q : ℚ), pyFloatOfString s = some q →
      normalizeMatchPercentage (JVal.str s) = q) ∧
    (∀ (s : Text) (q : ℚ), pyFloatOfString s = none → firstPercent s = some q →
      normalizeMatchPercentage (JVal.str s) = q) ∧
    (∀ s : Text, pyFloatOfString s = none → firstPercent s = none →
      normalizeMatchPercentage (JVal.str s) = 0) ∧
    normalizeMatchPercentage (JVal.str (("73%").data)) = 73 ∧
    normalizeMatchPercentage (JVal.str (("73.5 %").data)) = (73.5 : ℚ) ∧
    normalizeMatchPercentage (JVal.str (("seventy").data)) = 0 := by
  have h73 : normalizeMatchPercentage (JVal.str (("73%").data)) = ((73 : ℕ) : ℚ) := rfl
  have h735 : normalizeMatchPercentage (JVal.str (("73.5 %").data))
      = ((73 : ℕ) : ℚ) + ((5 : ℕ) : ℚ) / (10 : ℚ) ^ 1 := rfl
  refine ⟨fun q => rfl, ?_, ?_, ?_, by rw [h73]; norm_num,
    by rw [h735]; norm_num, rfl⟩
  · intro s q h; simp [normalizeMatchPercentage, h]
  · intro s q h1 h2; simp [normalizeMatchPercentage, h1, h2]
  · intro s h1 h2; simp [normalizeMatchPercentage, h1, h2]

/-- Witness for C3 at the unparseable string `"seventy"`. -/
theorem match_percentage_normalization_witness :
    normalizeMatchPercentage (JVal.str (("seventy").data)) = 0 :=
  match_percentage_normalization.2.2.2.1 (("seventy").data) (by decide) (by decide)

/-! ## C6: dispatch boundary -/

/-- C6: when any of the four transport parameters is still empty after the
fallback to the configuration defaults, dispatch returns the
missing-credentials failure without attempting a network call; on transport
failure it returns a failure result carrying the cause; and the send
boundary always returns a result value to the caller. -/
theorem dispatch_result_boundary :
    ∀ (net : Transport) (given defaults : SmtpParams) (subject body recipient : Text),
      (((resolveParams given defaults).username = [] ∨
        (resolveParams given defaults).password = [] ∨
        (resolveParams given defaults).server = [] ∨
        (resolveParams given defaults).port = []) →
        send_email_to_candidate net given defaults subject body recipient =
          (SendResult.missingCredentials, none)) ∧
      (∀ m : Text, net = Transport.err m →
        (resolveParams given defaults).username ≠ [] →
        (resolveParams given defaults).password ≠ [] →
        (resolveParams given defaults).server ≠ [] →
        (resolveParams given defaults).port ≠ [] →
        send_email_to_candidate net given defaults subject body recipient =
          (SendResult.transportFailure m, some ⟨subject, pyStrip body, recipient⟩)) ∧
      (∀ st : AgentState, ∃ reply st2 trace,
        handle_send_request net given defaults st = (reply, st2, trace)) := by
  intro net given defaults subject body recipient
  refine ⟨?_, ?_, fun st => ⟨_, _, _, rfl⟩⟩
  · intro h
    simp only [send_email_to_candidate]
    rw [if_pos]
    rcases h with h | h | h | h <;> simp [List.isEmpty_eq_true, h]
  · intro m hm h1 h2 h3 h4
    subst hm
    simp only [send_email_to_candidate]
    rw [if_neg]
    simp only [Bool.or_eq_true, List.isEmpty_eq_true, not_or]
    exact ⟨⟨⟨h1, h2⟩, h3⟩, h4⟩

/-- Witness for C6: with every parameter empty both at the call site and in
the configuration, dispatch reports missing credentials and records no
network attempt. -/
theorem dispatch_result_boundary_witness :
    send_email_to_candidate Transport.ok ⟨[], [], [], []⟩ ⟨[], [], [], []⟩
      (("s").data) (("b").data) (("r").data) = (SendResult.missingCredentials, none) :=
  (dispatch_result_boundary Transport.ok ⟨[], [], [], []⟩ ⟨[], [], [], []⟩
    (("s").data) (("b").data) (("r").data)).1 (Or.inl rfl)

theorem handle_send_request_state (net : Transport) (given defaults : SmtpParams)
    (st : AgentState) : (handle_send_request net given defaults st).2.1 = st := by
  cases hd : st.draft with
  | none => simp [handle_send_request, hd]
  | some d =>
    simp only [handle_send_request, hd]
    split <;> rfl

theorem send_trace_eq (net : Transport) (given defaults : SmtpParams)
    (subject body recipient : Text)
    (h1 : (resolveParams given defaults).username ≠ [])
    (h2 : (resolveParams given defaults).password ≠ [])
    (h3 : (resolveParams given defaults).server ≠ [])
    (h4 : (resolveParams given defaults).port ≠ []) :
    (send_email_to_candidate net given defaults subject body recipient).2 =
      some ⟨subject, pyStrip body, recipient⟩ := by
  simp only [send_email_to_candidate]
  rw [if_neg]
  · cases net <;> rfl
  · simp only [Bool.or_eq_true, List.isEmpty_eq_true, not_or]
    exact ⟨⟨⟨h1, h2⟩, h3⟩, h4⟩

theorem handle_send_trace (net : Transport) (given defaults : SmtpParams)
    (st : AgentState) (d : Draft) (hd : st.draft = some d)
    (h1 : (resolveParams given defaults).username ≠ [])
    (h2 : (resolveParams given defaults).password ≠ [])
    (h3 : (resolveParams given defaults).server ≠ [])
    (h4 : (resolveParams given defaults).port ≠ []) :
    (handle_send_request net given defaults st).2.2 =
      some ⟨d.subject, pyStrip d.body, st.candidateEmail⟩ := by
  simp only [handle_send_request, hd]
  have := send_trace_eq net given defaults d.subject d.body st.candidateEmail h1 h2 h3 h4
  split <;> simpa using this

/-! ## C5: draft/send round trip -/

/-- C5: a send-email intent with no cached draft returns the distinguished
nothing-to-send reply (state untouched); a successful generate caches a
draft whose body is the stripped model output and whose recipient is the
candidate; sending after a generate hands exactly the cached subject and
body to the transport; and a send never modifies the state, so an immediate
second send reuses the same draft. -/
theorem draft_send_roundtrip :
    ∀ (net : Transport) (given defaults : SmtpParams) (llm : Text → Text)
      (fmt : Text → Text → Text → Text → Text) (st : AgentState) (q : Text),
      (st.draft = none →
        handle_send_request net given defaults st = (noDraftMessage, st, none)) ∧
      ((handle_send_request net given defaults st).2.1 = st) ∧
      (∃ d : Draft, (generate_email llm fmt st q).2.draft = some d ∧
        d.body = pyStrip (llm (emailPrompt st q)) ∧
        d.toAddr = st.candidateEmail) ∧
      ((resolveParams given defaults).username ≠ [] →
        (resolveParams given defaults).password ≠ [] →
        (resolveParams given defaults).server ≠ [] →
        (resolveParams given defaults).port ≠ [] →
        ∀ d : Draft, (generate_email llm fmt st q).2.draft = some d →
          (handle_send_request net given defaults (generate_email llm fmt st q).2).2.2 =
            some ⟨d.subject, d.body, st.candidateEmail⟩) ∧
      ((handle_send_request net given defaults
          ((handle_send_request net given defaults st).2.1)).2.2 =
        (handle_send_request net given defaults st).2.2) := by
  intro net given defaults llm fmt st q
  refine ⟨?_, handle_send_request_state net given defaults st, ⟨_, rfl, rfl, rfl⟩,
    ?_, by rw [handle_send_request_state net given defaults st]⟩
  · intro h
    simp [handle_send_request, h]
  · intro h1 h2 h3 h4 d hd
    have hbody : d.body = pyStrip (llm (emailPrompt st q)) := by
      have hinj := Option.some.inj hd.symm
      rw [hinj]
    have := handle_send_trace net given defaults (generate_email llm fmt st q).2 d hd
      h1 h2 h3 h4
    rw [this, hbody, pyStrip_idem]
    rfl

/-- Witness for C5: on a fresh draftless session, a send request returns the
nothing-to-send reply with the state unchanged and no dispatch attempted. -/
theorem draft_send_roundtrip_witness :
    handle_send_request Transport.ok ⟨[], [], [], []⟩ ⟨[], [], [], []⟩
      ⟨[], [], [], [], [], none⟩ =
      (noDraftMessage, (⟨[], [], [], [], [], none⟩ : AgentState), none) :=
  (draft_send_roundtrip Transport.ok ⟨[], [], [], []⟩ ⟨[], [], [], []⟩
    (fun _ => []) (fun _ _ _ _ => []) ⟨[], [], [], [], [], none⟩ []).1 rfl

/-! ## C9: conversation-history frame effects -/

/-- C9: generate-email and send-email intents leave the conversation history
unchanged; a plain query appends exactly one human message followed by one
model message; the history keeps exactly one system context message, and
the message list of a plain-query model invocation starts with it. -/
theorem history_frame_effects :
    ∀ (llm : Text → Text) (llmChat : List PMsg → Text)
      (fmt : Text → Text → Text → Text → Text) (net : Transport)
      (given defaults : SmtpParams) (st : AgentState) (q : Text),
      countSystem st.history = 1 →
      (∀ rc jd ce hn : Text, countSystem (initAgent rc jd ce hn).history = 1) ∧
      (is_email_request q = true →
        (chat llm llmChat fmt net given defaults st q).2.1.history = st.history) ∧
      (is_email_request q = false → is_send_request q = true →
        (chat llm llmChat fmt net given defaults st q).2.1.history = st.history) ∧
      (is_email_request q = false → is_send_request q = false →
        (chat llm llmChat fmt net given defaults st q).2.1.history =
          st.history ++ [Msg.human q, Msg.ai (llmChat (queryMessages st q))] ∧
        countSystem (chat llm llmChat fmt net given defaults st q).2.1.history = 1 ∧
        (∃ c rest, queryMessages st q = PMsg.system c :: rest)) := by
  intro llm llmChat fmt net given defaults st q hsys
  have hne : st.history.filter isSystemMsg ≠ [] := by
    intro h0
    rw [countSystem, h0] at hsys
    simp at hsys
  have hctx : historyWithContext st = st.history := by
    rw [historyWithContext, if_neg (by simp [List.isEmpty_eq_true, hne])]
  refine ⟨fun rc jd ce hn => rfl, ?_, ?_, ?_⟩
  · intro h
    have hc : chat llm llmChat fmt net given defaults st q =
        ((generate_email llm fmt st q).1, (generate_email llm fmt st q).2, none) := by
      simp [chat, h]
    rw [hc]
    rfl
  · intro h1 h2
    have hc : chat llm llmChat fmt net given defaults st q =
        handle_send_request net given defaults st := by
      simp [chat, h1, h2]
    rw [hc, show (handle_send_request net given defaults st).2.1.history = st.history from
      congrArg AgentState.history (handle_send_request_state net given defaults st)]
  · intro h1 h2
    obtain ⟨m, hm⟩ := List.length_eq_one.mp hsys
    have hmem : m ∈ st.history.filter isSystemMsg := hm ▸ List.mem_cons_self m []
    have hsysm : isSystemMsg m = true := (List.mem_filter.mp hmem).2
    obtain ⟨c, rfl⟩ : ∃ c, m = Msg.system c := by
      cases m with
      | system c => exact ⟨c, rfl⟩
      | human c => simp [isSystemMsg] at hsysm
      | ai c => simp [isSystemMsg] at hsysm
    refine ⟨?_, ?_,
      ⟨c, (st.history.filter (fun m => !isSystemMsg m)).map toPMsg ++ [PMsg.human q], ?_⟩⟩
    · simp only [chat, h1, h2, Bool.false_eq_true, if_false, queryStep, hctx]
    · simp only [chat, h1, h2, Bool.false_eq_true, if_false, queryStep, hctx]
      simp [countSystem, List.filter_append, isSystemMsg, hsys]
      exact hsys
    · simp only [queryMessages, hctx, hm]
      rfl

/-- Witness for C9: on a one-system-message session, the plain query
`hello` appends exactly one human and one model message. -/
theorem history_frame_effects_witness :
    (chat (fun _ => []) (fun _ => []) (fun _ _ _ _ => []) Transport.ok
      ⟨[], [], [], []⟩ ⟨[], [], [], []⟩
      ⟨[], [], [], [], [Msg.system []], none⟩ (("hello").data)).2.1.history =
      [Msg.system [], Msg.human (("hello").data), Msg.ai []] := by
  have h := (history_frame_effects (fun _ => []) (fun _ => []) (fun _ _ _ _ => [])
    Transport.ok ⟨[], [], [], []⟩ ⟨[], [], [], []⟩
    ⟨[], [], [], [], [Msg.system []], none⟩ (("hello").data) (by decide)).2.2.2
    (by decide) (by decide)
  rw [h.1]
  rfl

/-! ## C2: manual extraction fallback -/

/-- C2 counterexample: a non-JSON text containing `Senior`, `45%` and `High`
whose manual extraction nevertheless yields positionLevel `Junior`, because
the Junior pattern is checked first. -/
theorem manual_extraction_counterexample :
    containsSub (("Junior Senior 45% High").data) (("Senior").data) = true ∧
    containsSub (("Junior Senior 45% High").data) (("45%").data) = true ∧
    containsSub (("Junior Senior 45% High").data) (("High").data) = true ∧
    (extract_analysis_manually (("Junior Senior 45% High").data)).position_level
        = ("Junior").data ∧
    ¬ (extract_analysis_manually (("Junior Senior 45% High").data)).position_level
        = ("Senior").data := by
  refine ⟨by decide, by decide, by decide, by decide, by decide⟩

/-- C2 amended: the fallback keeps the full raw text as `detailedAnalysis`,
decides the position level by the first matching pattern in the fixed order
Junior, Mid-level, Senior, Lead, Executive, and the acceptance probability
by High, Medium, Low priority; in particular a text with a qualifying
`Senior` occurrence, no Junior or Mid-level keyword, leftmost percentage
token `45%` and containing `High` yields positionLevel Senior,
matchPercentage 45 and acceptanceProbability High. -/
theorem manual_extraction_fields :
    ∀ t : Text,
      (extract_analysis_manually t).detailed_analysis = t ∧
      (matchJunior t = true →
        (extract_analysis_manually t).position_level = ("Junior").data) ∧
      (matchJunior t = false → matchMid t = false → matchSenior t = true →
        (extract_analysis_manually t).position_level = ("Senior").data) ∧
      (matchHigh t = true →
        (extract_analysis_manually t).acceptance_probability = ("High").data) ∧
      (matchHigh t = false → matchMedium t = true →
        (extract_analysis_manually t).acceptance_probability = ("Medium").data) ∧
      (matchJunior t = false → matchMid t = false → matchSenior t = true →
       firstPercent t = some (45 : ℚ) → matchHigh t = true →
        (extract_analysis_manually t).position_level = ("Senior").data ∧
        (extract_analysis_manually t).match_percentage = 45 ∧
        (extract_analysis_manually t).acceptance_probability = ("High").data ∧
        (extract_analysis_manually t).detailed_analysis = t) := by
  intro t
  refine ⟨rfl, ?_, ?_, ?_, ?_, ?_⟩
  · intro h; simp [extract_analysis_manually, h]
  · intro h1 h2 h3; simp [extract_analysis_manually, h1, h2, h3]
  · intro h; simp [extract_analysis_manually, h]
  · intro h1 h2; simp [extract_analysis_manually, h1, h2]
  · intro h1 h2 h3 hp h4
    exact ⟨by simp [extract_analysis_manually, h1, h2, h3],
      by simp [extract_analysis_manually, hp],
      by simp [extract_analysis_manually, h4], rfl⟩

/-- Witness for C2 (amended) at a text satisfying every hypothesis. -/
theorem manual_extraction_fields_witness :
    (extract_analysis_manually
        (("The candidate is Senior: 45% match, acceptance High.").data)).position_level
      = ("Senior").data ∧
    (extract_analysis_manually
        (("The candidate is Senior: 45% match, acceptance High.").data)).match_percentage
      = 45 ∧
    (extract_analysis_manually
        (("The candidate is Senior: 45% match, acceptance High.").data)).acceptance_probability
      = ("High").data ∧
    (extract_analysis_manually
        (("The candidate is Senior: 45% match, acceptance High.").data)).detailed_analysis
      = ("The candidate is Senior: 45% match, acceptance High.").data :=
  (manual_extraction_fields
      (("The candidate is Senior: 45% match, acceptance High.").data)).2.2.2.2.2
    (by decide) (by decide) (by decide)
    (by
      rw [show firstPercent (("The candidate is Senior: 45% match, acceptance High.").data)
          = some ((45 : ℕ) : ℚ) from rfl]
      norm_num)
    (by decide)

/-! ## C4: email extraction examples and longest-match choice -/

/-- C4: the tightened primary pattern does not merge the adjacent token
`pe` into the address, trailing punctuation is excluded, and when several
primary candidates exist the extractor returns the longest match. -/
theorem email_extraction_examples :
    extractEmailS "Contact: pe diyakhetarpal@gmail.com more text"
        = some "diyakhetarpal@gmail.com" ∧
    extractEmailS "Reach me at j.doe@example.com." = some "j.doe@example.com" ∧
    (∀ s : Text, primaryFindAll (cleanText s) ≠ [] →
      ∃ e, e ∈ primaryFindAll (cleanText s) ∧
        extract_email_from_text s = some (pyStrip e) ∧
        ∀ e2 ∈ primaryFindAll (cleanText s), e2.length ≤ e.length) ∧
    (∀ s : Text, primaryFindAll (cleanText s) = [] →
      (fallbackFindAll (cleanText s)).filter (validEmailInText (cleanText s)) ≠ [] →
      ∃ e, e ∈ (fallbackFindAll (cleanText s)).filter (validEmailInText (cleanText s)) ∧
        extract_email_from_text s = some e ∧
        ∀ e2 ∈ (fallbackFindAll (cleanText s)).filter (validEmailInText (cleanText s)),
          e2.length ≤ e.length) := by
  refine ⟨by decide, by decide, ?_, ?_⟩
  · intro s hne
    refine ⟨maxByLen (primaryFindAll (cleanText s)), maxByLen_mem _ hne, ?_,
      fun e2 he2 => maxByLen_ge _ e2 he2⟩
    simp only [extract_email_from_text]
    rw [if_pos (by simp [List.isEmpty_eq_true, hne])]
  · intro s hp hne
    refine ⟨maxByLen ((fallbackFindAll (cleanText s)).filter (validEmailInText (cleanText s))),
      maxByLen_mem _ hne, ?_, fun e2 he2 => maxByLen_ge _ e2 he2⟩
    simp only [extract_email_from_text]
    rw [if_neg (by simp [List.isEmpty_eq_true, hp]),
      if_pos (by simp [List.isEmpty_eq_true, hne])]

/-- Witness for C4 (longest-match conjunct) at a text whose primary pattern
finds a candidate. -/
theorem email_extraction_examples_witness :
    ∃ e, e ∈ primaryFindAll (cleanText (("see alice.w@mail.co today").data)) ∧
      extract_email_from_text (("see alice.w@mail.co today").data) = some (pyStrip e) ∧
      ∀ e2 ∈ primaryFindAll (cleanText (("see alice.w@mail.co today").data)),
        e2.length ≤ e.length :=
  email_extraction_examples.2.2.1 (("see alice.w@mail.co today").data) (by decide)

/-! ## C10: well-formedness of every extracted address -/

theorem tldSearch_shape {closer : Text → Text → Bool} {tstart : Text} :
    ∀ {m : Nat} {T rest : Text},
      tldSearch closer tstart m = some (T, rest) →
      m ≤ (tstart.takeWhile tldClass).length →
      (∀ c ∈ T, tldClass c = true) ∧ 2 ≤ T.length := by
  intro m
  induction m with
  | zero => intro T rest h _; simp [tldSearch] at h
  | succ m ih =>
    intro T rest h hm
    by_cases hm0 : m = 0
    · rw [tldSearch, if_pos hm0] at h
      exact absurd h (by simp)
    · rw [tldSearch, if_neg hm0] at h
      by_cases hc : closer (tstart.take (m + 1)) (tstart.drop (m + 1))
      · rw [if_pos hc] at h
        obtain ⟨hT, _⟩ := Prod.mk.injEq .. ▸ Option.some.inj h
        subst hT
        refine ⟨all_take_of_le_takeWhile hm, ?_⟩
        rw [List.length_take]
        have hlen : m + 1 ≤ tstart.length :=
          le_trans hm (List.takeWhile_prefix _).length_le
        omega
      · rw [if_neg hc] at h
        exact ih h (le_trans (Nat.le_succ m) hm)

theorem domSearch_shape {closer : Text → Text → Bool} {rest3 : Text} :
    ∀ {k : Nat} {dom rest : Text},
      domSearch closer rest3 k = some (dom, rest) →
      k ≤ (rest3.takeWhile domClass).length →
      ∃ D T, dom = D ++ '.' :: T ∧ (∀ c ∈ D, domClass c = true) ∧ 1 ≤ D.length ∧
        (∀ c ∈ T, tldClass c = true) ∧ 2 ≤ T.length := by
  intro k
  induction k with
  | zero => intro dom rest h _; simp [domSearch] at h
  | succ k ih =>
    intro dom rest h hk
    rw [domSearch] at h
    split at h
    · next tstart heq =>
      cases htld : tldSearch closer tstart ((tstart.takeWhile tldClass).length) with
      | some p =>
        obtain ⟨T, rest2⟩ := p
        rw [htld] at h
        obtain ⟨hdom, _⟩ := Prod.mk.injEq .. ▸ Option.some.inj h
        obtain ⟨hT, hT2⟩ := tldSearch_shape htld (le_refl _)
        refine ⟨rest3.take (k + 1), T, hdom.symm,
          all_take_of_le_takeWhile hk, ?_, hT, hT2⟩
        have hne : rest3.drop (k + 1) ≠ [] := by rw [heq]; simp
        have hlt : k + 1 < rest3.length := by
          by_contra hge
          exact hne (List.drop_eq_nil_iff.mpr (by omega))
        rw [List.length_take]
        omega
      | none =>
        rw [htld] at h
        exact ih h (le_trans (Nat.le_succ k) hk)
    · exact ih h (le_trans (Nat.le_succ k) hk)

theorem matchEmailAt_shape {closer : Text → Text → Bool} {cs e rest : Text}
    (h : matchEmailAt closer cs = some (e, rest)) : EmailShape e := by
  cases cs with
  | nil => simp [matchEmailAt] at h
  | cons c0 rest0 =>
    rw [matchEmailAt] at h
    by_cases h0 : c0.isAlphanum
    · rw [if_pos h0] at h
      by_cases hl : (rest0.takeWhile localClass).length ≥ 2
      · rw [if_pos hl] at h
        split at h
        · next d0 rest3 heq =>
          by_cases hd : d0.isAlphanum
          · rw [if_pos hd] at h
            cases hds : domSearch closer rest3 ((rest3.takeWhile domClass).length) with
            | some p =>
              obtain ⟨dom, restA⟩ := p
              rw [hds] at h
              obtain ⟨he, _⟩ := Prod.mk.injEq .. ▸ Option.some.inj h
              obtain ⟨D, T, hdom, hD, hD1, hT, hT2⟩ := domSearch_shape hds (le_refl _)
              refine ⟨c0, rest0.takeWhile localClass, d0, D, T, ?_, h0,
                fun c hc => List.mem_takeWhile_imp hc, hl, hd, hD, hD1, hT, hT2⟩
              rw [← he, hdom]
            | none => rw [hds] at h; exact absurd h (by simp)
          · rw [if_neg hd] at h; exact absurd h (by simp)
        · exact absurd h (by simp)
      · rw [if_neg hl] at h; exact absurd h (by simp)
    · rw [if_neg h0] at h; exact absurd h (by simp)

theorem primaryScan_succ (fuel : Nat) (atStart : Bool) (cs : Text) :
    primaryScan (fuel + 1) atStart cs =
      match (if atStart then matchEmailAt primaryCloser cs else none) with
      | some (e, rest) => e :: primaryScan fuel false (consumeCloser rest)
      | none =>
        match cs with
        | [] => []
        | c :: rest1 =>
          if isB1 c then
            match matchEmailAt primaryCloser rest1 with
            | some (e, rest) => e :: primaryScan fuel false (consumeCloser rest)
            | none => primaryScan fuel false rest1
          else primaryScan fuel false rest1 := rfl

theorem fallbackScan_succ (fuel : Nat) (prev : Option Char) (cs : Text) :
    fallbackScan (fuel + 1) prev cs =
      match (if (match prev with | none => true | some p => !wordChar p)
          then matchEmailAt fallbackCloser cs else none) with
      | some (e, rest) => e :: fallbackScan fuel e.getLast? rest
      | none =>
        match cs with
        | [] => []
        | c :: rest1 => fallbackScan fuel (some c) rest1 := rfl

theorem primaryScan_shape : ∀ (fuel : Nat) (atStart : Bool) (cs e : Text),
    e ∈ primaryScan fuel atStart cs → EmailShape e := by
  intro fuel
  induction fuel with
  | zero => intro atStart cs e h; simp [primaryScan] at h
  | succ fuel ih =>
    intro atStart cs e h
    rw [primaryScan_succ] at h
    split at h
    · next e1 r1 heq =>
      rcases List.mem_cons.mp h with rfl | h2
      · by_cases ha : atStart = true
        · rw [if_pos ha] at heq; exact matchEmailAt_shape heq
        · rw [if_neg ha] at heq; simp at heq
      · exact ih _ _ _ h2
    · split at h
      · simp at h
      · split at h
        · split at h
          · next e2 r2 heq2 =>
            rcases List.mem_cons.mp h with rfl | h3
            · exact matchEmailAt_shape heq2
            · exact ih _ _ _ h3
          · exact ih _ _ _ h
        · exact ih _ _ _ h

theorem fallbackScan_shape : ∀ (fuel : Nat) (prev : Option Char) (cs e : Text),
    e ∈ fallbackScan fuel prev cs → EmailShape e := by
  intro fuel
  induction fuel with
  | zero => intro prev cs e h; simp [fallbackScan] at h
  | succ fuel ih =>
    intro prev cs e h
    rw [fallbackScan_succ] at h
    split at h
    · next e1 r1 heq =>
      rcases List.mem_cons.mp h with rfl | h2
      · rcases prev with _ | p
        · rw [if_pos rfl] at heq
          exact matchEmailAt_shape heq
        · by_cases hw : wordChar p = true
          · rw [if_neg (by simp [hw])] at heq; simp at heq
          · rw [if_pos (by simp [Bool.not_eq_true] at hw; simp [hw])] at heq
            exact matchEmailAt_shape heq
      · exact ih _ _ _ h2
    · split at h
      · simp at h
      · exact ih _ _ _ h

theorem not_space_of_alnum {c : Char} (h : c.isAlphanum = true) :
    pyIsSpace c = false := by
  cases hp : pyIsSpace c with
  | false => rfl
  | true =>
    exfalso
    simp only [pyIsSpace, Bool.or_eq_true, decide_eq_true_eq] at hp
    rcases hp with ((((rfl | rfl) | rfl) | rfl) | rfl) | rfl <;> exact absurd h (by decide)

theorem not_space_of_tld {c : Char} (h : tldClass c = true) :
    pyIsSpace c = false := by
  cases hp : pyIsSpace c with
  | false => rfl
  | true =>
    exfalso
    simp only [pyIsSpace, Bool.or_eq_true, decide_eq_true_eq] at hp
    rcases hp with ((((rfl | rfl) | rfl) | rfl) | rfl) | rfl <;> exact absurd h (by decide)

theorem emailShape_wellFormed {e : Text} (hs : EmailShape e) :
    wellFormedEmail e = true := by
  obtain ⟨c0, lrun, d0, D, T, rfl, h0, hl, _, hd0, hD, _, hT, hT2⟩ := hs
  have hc0 : ¬(c0 = '@') := fun hEq => absurd (hEq ▸ h0) (by decide)
  have hd0ne : ¬(d0 = '@') := fun hEq => absurd (hEq ▸ hd0) (by decide)
  have hlnot : '@' ∉ lrun := fun hm => absurd (hl _ hm) (by decide)
  have hDnot : '@' ∉ D := fun hm => absurd (hD _ hm) (by decide)
  have hTnot : '@' ∉ T := fun hm => absurd (hT _ hm) (by decide)
  have hTdot : ∀ c ∈ T.reverse, (fun c => !(c = '.')) c = true := by
    intro c hc
    have := hT c (List.mem_reverse.mp hc)
    simpa using fun hEq => absurd (hEq ▸ this) (by decide)
  have hTne : T ≠ [] := by intro h0'; rw [h0'] at hT2; simp at hT2
  have hcount : List.count '@' (c0 :: (lrun ++ '@' :: d0 :: (D ++ '.' :: T))) = 1 := by
    simp [List.count_cons, List.count_append, List.count_eq_zero.mpr hlnot,
      List.count_eq_zero.mpr hDnot, List.count_eq_zero.mpr hTnot, hc0, hd0ne]
  have hdrop : ((c0 :: (lrun ++ '@' :: d0 :: (D ++ '.' :: T))).dropWhile
      (fun c => !(c = '@'))) = '@' :: d0 :: (D ++ '.' :: T) := by
    have hpre : ∀ c ∈ c0 :: lrun, (fun c => !(c = '@')) c = true := by
      intro c hc
      rcases List.mem_cons.mp hc with rfl | hc
      · simpa using hc0
      · simpa using fun hEq => absurd (hEq ▸ hl c hc) (by decide)
    calc ((c0 :: lrun) ++ '@' :: d0 :: (D ++ '.' :: T)).dropWhile (fun c => !(c = '@'))
        = ('@' :: d0 :: (D ++ '.' :: T)).dropWhile (fun c => !(c = '@')) :=
          dropWhile_append_all hpre
      _ = '@' :: d0 :: (D ++ '.' :: T) := by rw [List.dropWhile_cons]; simp
  have hrev : (d0 :: (D ++ '.' :: T)).reverse = T.reverse ++ '.' :: (d0 :: D).reverse := by
    rw [show d0 :: (D ++ '.' :: T) = (d0 :: D) ++ ('.' :: T) from rfl,
      List.reverse_append, List.reverse_cons]
    simp [List.append_assoc]
  have hlast : lastLabel (d0 :: (D ++ '.' :: T)) = T := by
    rw [lastLabel, hrev, takeWhile_append_stop hTdot (by simp), List.reverse_reverse]
  have hdot : '.' ∈ d0 :: (D ++ '.' :: T) :=
    List.mem_cons_of_mem _ (List.mem_append_right _ (List.mem_cons_self _ _))
  simp only [wellFormedEmail, hcount, hdrop, List.tail_cons, hlast, Bool.and_eq_true,
    decide_eq_true_eq]
  refine ⟨trivial, ?_, hT2⟩
  exact List.elem_iff.mpr hdot

theorem emailShape_strip {e : Text} (hs : EmailShape e) : pyStrip e = e := by
  obtain ⟨c0, lrun, d0, D, T, rfl, h0, _, _, _, _, _, hT, hT2⟩ := hs
  have hTne : T ≠ [] := by intro h0'; rw [h0'] at hT2; simp at hT2
  apply pyStrip_eq_self
  · intro c hc
    have : c0 = c := by simpa using hc
    exact this ▸ not_space_of_alnum h0
  · intro c hc
    have hE : c0 :: (lrun ++ '@' :: d0 :: (D ++ '.' :: T)) =
        (c0 :: (lrun ++ '@' :: d0 :: (D ++ ['.']))) ++ T := by
      simp [List.append_assoc]
    rw [hE, List.getLast?_append_of_ne_nil _ hTne] at hc
    exact not_space_of_tld (hT c (mem_of_getLastEq hc))

/-- C10: `extract_email_from_text` is total and every address it returns is
well formed — exactly one `@`, a dotted domain, and a final domain label of
at least two characters, on the primary and the fallback path alike. -/
theorem extraction_wellformed :
    ∀ (s e : Text), extract_email_from_text s = some e → wellFormedEmail e = true := by
  intro s e h
  simp only [extract_email_from_text] at h
  by_cases h1 : (primaryFindAll (cleanText s)).isEmpty
  · rw [if_neg (by simp [h1])] at h
    by_cases h2 : ((fallbackFindAll (cleanText s)).filter
        (validEmailInText (cleanText s))).isEmpty
    · rw [if_neg (by simp [h2])] at h
      exact absurd h (by simp)
    · rw [if_pos (by simp [Bool.not_eq_true] at h2; simp [h2])] at h
      have hne : (fallbackFindAll (cleanText s)).filter (validEmailInText (cleanText s)) ≠ [] := by
        intro h0
        rw [h0] at h2
        exact h2 rfl
      have hmem := maxByLen_mem _ hne
      have hmem2 := (List.mem_filter.mp hmem).1
      have hshape := fallbackScan_shape _ _ _ _ hmem2
      rw [← Option.some.inj h]
      exact emailShape_wellFormed hshape
  · rw [if_pos (by simp [Bool.not_eq_true] at h1; simp [h1])] at h
    have hne : primaryFindAll (cleanText s) ≠ [] := by
      intro h0
      rw [h0] at h1
      exact h1 rfl
    have hmem := maxByLen_mem _ hne
    have hshape := primaryScan_shape _ _ _ _ hmem
    rw [← Option.some.inj h, emailShape_strip hshape]
    exact emailShape_wellFormed hshape

/-- Witness for C10: the address extracted from a sample text is well
formed. -/
theorem extraction_wellformed_witness :
    wellFormedEmail (("a.b@cd.ef").data) = true :=
  extraction_wellformed (("ping a.b@cd.ef now").data) (("a.b@cd.ef").data) (by decide)

end HRSpec
